import Mathlib

/-!
# Verification of the StableSwap simulator (`src/stable.py`)

This file shallowly embeds the numerical core of `StableSwapSimulator`
(`src/stable.py`): the curve residual `_invariant_function`, the invariant
solver `_compute_invariant`, the balance solver `solve_for_balance`, the
quoting functions `get_dy_given_dx` / `get_dx_given_dy`, the swap entry
points `swap_x_for_y` / `swap_y_for_x`, the spot-price update
`update_spot_price`, and construction (`__init__`, embedded as `mkPool`).

Modelling conventions:

* Numbers are embedded as exact rationals (`ℚ`).  The Python source mixes
  IEEE doubles (inside `scipy.optimize.newton` and `_invariant_function`)
  with `Decimal` storage, converting through `Decimal(str(float_result))`
  at every boundary.  The specification's design notes (§9) explicitly
  direct implementations to "unify on one deterministic numeric
  representation (e.g., a single fixed-point or arbitrary-precision decimal
  type) used consistently", flagging the float/Decimal mixture as a latent
  fidelity gap rather than behaviour to reproduce; we therefore give every
  arithmetic step its exact rational semantics and treat the
  `Decimal(str(...))` conversions as the identity.  All control flow
  (branches, error propagation, iteration caps) is modelled exactly.

* Python exceptions are embedded with `Except Err`.  A method that mutates
  `self` is embedded as a function `Pool → ... → Except Err ℚ × Pool`
  returning the result (or the raised exception) together with the state of
  the object when the call ends, so that a mutation followed by a raised
  exception leaves the mutation visible, exactly as in Python.

* `scipy.optimize.newton` without `fprime` runs the secant method.
  `newton` / `secantLoop` below embed that algorithm at the source's call
  parameters (`tol=1e-10`, `maxiter=100`, `rtol=0`, `disp=True`):
  second starting point `x0*(1 + 1e-4) ± 1e-4`, slope from the two most
  recent evaluations, acceptance when `|p - p1| ≤ tol`, `RuntimeError`
  (embedded as `Err.convergenceError`) when the two residuals coincide at
  distinct points or when the iteration cap is exhausted.  The two
  algebraically equivalent update formulas scipy chooses between for
  float stability collapse to the single rational expression
  `(q1*p0 - q0*p1)/(q1 - q0)` under exact arithmetic.
-/

/-- Failure kinds.  `valueError`, `zeroDivisionError` and
`convergenceError` (scipy's `RuntimeError`) are the exceptions the source
can actually raise; `domainError`, `insufficientLiquidity` and
`invariantViolation` are the failure kinds named by the specification, so
that statements such as "this call never fails with
`InsufficientLiquidity`" are expressible about the embedded code. -/
inductive Err where
  | valueError
  | zeroDivisionError
  | convergenceError
  | domainError
  | insufficientLiquidity
  | invariantViolation
deriving DecidableEq

/-- Swap direction recorded in `swap_history` (the source uses the strings
`'X->Y'` and `'Y->X'`). -/
inductive Dir where
  | xy
  | yx
deriving DecidableEq

/-- The mutable state of a `StableSwapSimulator` instance.  `bal0`/`bal1`
embed `self.balances[0]`/`self.balances[1]` (construction validates that
exactly two balances are supplied, so the two-element list is embedded as
two fields). -/
structure Pool where
  bal0 : ℚ
  bal1 : ℚ
  amp : ℚ
  invariant : ℚ
  spot_price : ℚ
  swap_history : List (Dir × ℚ × ℚ)
  price_history : List (ℚ × ℚ × ℚ)
deriving DecidableEq

/-- The closed-form value computed by `_invariant_function` on its
non-raising path: `4A(x+y) + d - (4Ad + d³/(4xy))` (source lines 67-70). -/
def residualFun (A d x y : ℚ) : ℚ :=
  4 * A * (x + y) + d - (4 * A * d + d ^ 3 / (4 * x * y))

/-- `_invariant_function(d, [x, y])` with amplification `A`: raises
`ZeroDivisionError` when the denominator `4*x*y` is zero, otherwise
returns the residual.  (The method's `len(balances) != 2` `ValueError`
guard is unreachable from the class, which only ever passes two-element
lists; the constructor-level count check lives in `mkPool`.) -/
def invariant_function (A d x y : ℚ) : Except Err ℚ :=
  if 4 * x * y = 0 then .error .zeroDivisionError
  else .ok (residualFun A d x y)

/-- One run of the secant loop of `scipy.optimize.newton` (derivative-free
branch, `rtol=0`, `disp=True`), with explicit fuel for the iteration cap.
State: previous point/value `p0, q0`, current point/value `p1, q1`. -/
def secantLoop (f : ℚ → Except Err ℚ) (tol : ℚ) :
    ℚ → ℚ → ℚ → ℚ → Nat → Except Err ℚ
  | _, _, _, _, 0 => .error .convergenceError
  | p0, q0, p1, q1, n + 1 =>
    if q1 = q0 then
      if p1 = p0 then .ok ((p1 + p0) / 2) else .error .convergenceError
    else
      let p := (q1 * p0 - q0 * p1) / (q1 - q0)
      if |p - p1| ≤ tol then .ok p
      else
        match f p with
        | .error e => .error e
        | .ok q => secantLoop f tol p1 q1 p q n

/-- `scipy.optimize.newton(f, x0, tol, maxiter)` without `fprime`: the
secant method.  The second starting point is `x0*(1 + 1e-4)` shifted by
`±1e-4`, and the better of the two starting points (smaller residual) is
promoted to the current point. -/
def newton (f : ℚ → Except Err ℚ) (x0 tol : ℚ) (maxiter : Nat) :
    Except Err ℚ :=
  let eps : ℚ := 1 / 10 ^ 4
  let p1x := x0 * (1 + eps)
  let p1 := if 0 ≤ p1x then p1x + eps else p1x - eps
  match f x0 with
  | .error e => .error e
  | .ok q0 =>
    match f p1 with
    | .error e => .error e
    | .ok q1 =>
      if |q1| < |q0| then secantLoop f tol p1 q1 x0 q0 maxiter
      else secantLoop f tol x0 q0 p1 q1 maxiter

/-- Instrumented variant of `secantLoop` that additionally reports how many
loop iterations were executed (used only to state resource bounds). -/
def secantLoopCount (f : ℚ → Except Err ℚ) (tol : ℚ) :
    ℚ → ℚ → ℚ → ℚ → Nat → Except Err ℚ × Nat
  | _, _, _, _, 0 => (.error .convergenceError, 0)
  | p0, q0, p1, q1, n + 1 =>
    if q1 = q0 then
      if p1 = p0 then (.ok ((p1 + p0) / 2), 1) else (.error .convergenceError, 1)
    else
      let p := (q1 * p0 - q0 * p1) / (q1 - q0)
      if |p - p1| ≤ tol then (.ok p, 1)
      else
        match f p with
        | .error e => (.error e, 1)
        | .ok q =>
          let r := secantLoopCount f tol p1 q1 p q n
          (r.1, r.2 + 1)

/-- Instrumented variant of `newton` reporting executed loop iterations. -/
def newtonCount (f : ℚ → Except Err ℚ) (x0 tol : ℚ) (maxiter : Nat) :
    Except Err ℚ × Nat :=
  let eps : ℚ := 1 / 10 ^ 4
  let p1x := x0 * (1 + eps)
  let p1 := if 0 ≤ p1x then p1x + eps else p1x - eps
  match f x0 with
  | .error e => (.error e, 0)
  | .ok q0 =>
    match f p1 with
    | .error e => (.error e, 0)
    | .ok q1 =>
      if |q1| < |q0| then secantLoopCount f tol p1 q1 x0 q0 maxiter
      else secantLoopCount f tol x0 q0 p1 q1 maxiter

/-- `_compute_invariant` for balances `[b0, b1]` and amplification `A`
(source lines 72-91): returns `D = 0` without iterating when the balance
sum is zero, otherwise runs the root-finder on the residual in `D` from
initial guess `b0 + b1` with tolerance `1e-10` and iteration cap `100`.
Exceptions raised by `_invariant_function` propagate (no handler here). -/
def compute_invariant (b0 b1 A : ℚ) : Except Err ℚ :=
  if b0 + b1 = 0 then .ok 0
  else newton (fun d => invariant_function A d b0 b1) (b0 + b1) (1 / 10 ^ 10) 100

/-- Instrumented variant of `compute_invariant` reporting executed
root-finder iterations. -/
def compute_invariant_count (b0 b1 A : ℚ) : Except Err ℚ × Nat :=
  if b0 + b1 = 0 then (.ok 0, 0)
  else newtonCount (fun d => invariant_function A d b0 b1) (b0 + b1) (1 / 10 ^ 10) 100

/-- The expression `4 * A - (d**3) / (4 * (x**2) * y)` computed at source
line 108 and used as `df_dx` by `update_spot_price`. -/
def df_dx (A d x y : ℚ) : ℚ := 4 * A - d ^ 3 / (4 * x ^ 2 * y)

/-- The expression `4 * A - (d**3) / (4 * x * (y**2))` computed at source
line 109 and used as `df_dy` by `update_spot_price`. -/
def df_dy (A d x y : ℚ) : ℚ := 4 * A - d ^ 3 / (4 * x * y ^ 2)

/-- `update_spot_price` (source lines 94-121): computes the two
`df_` expressions at the current state, stores their quotient as the spot
price and appends a `(x, y, price)` snapshot to `price_history`.  Python
raises `ZeroDivisionError` when either denominator `4x²y`, `4xy²` is zero
or when `df_dx` is zero. -/
def update_spot_price (p : Pool) : Except Err Pool :=
  let x := p.bal0
  let y := p.bal1
  let d := p.invariant
  let A := p.amp
  if 4 * x ^ 2 * y = 0 then .error .zeroDivisionError
  else if 4 * x * y ^ 2 = 0 then .error .zeroDivisionError
  else
    let fx := df_dx A d x y
    let fy := df_dy A d x y
    if fx = 0 then .error .zeroDivisionError
    else
      .ok { p with
            spot_price := fy / fx,
            price_history := p.price_history ++ [(x, y, fy / fx)] }

/-- `solve_for_balance(known_balance, balance_index, target_invariant)`
(source lines 123-159).  The inner objective `invariant_error` places the
known balance at `balance_index` and the candidate at the other slot,
evaluates `_invariant_function` at the target invariant, and converts any
exception into the penalty value `1e10` (the bare `except` at line 145).
The root-finder starts from the pool's current other-side balance with
tolerance `1e-10` and cap `100`.  The converged value is returned with no
further validation. -/
def solve_for_balance (p : Pool) (known : ℚ) (idx : Nat) (target : ℚ) :
    Except Err ℚ :=
  let obj : ℚ → Except Err ℚ := fun cand =>
    let x := if idx = 0 then known else cand
    let y := if idx = 0 then cand else known
    match invariant_function p.amp target x y with
    | .error _ => .ok (10 ^ 10)
    | .ok v => .ok v
  let other := if idx = 0 then p.bal1 else p.bal0
  newton obj other (1 / 10 ^ 10) 100

/-- `get_dy_given_dx(dx)` (source lines 161-180): `x_new = x + dx`, solve
for the `y` that keeps the invariant, return `y - y_new`.  The method
reads but never assigns pool state, so the returned pool is the input. -/
def get_dy_given_dx (p : Pool) (dx : ℚ) : Except Err ℚ × Pool :=
  match solve_for_balance p (p.bal0 + dx) 0 p.invariant with
  | .error e => (.error e, p)
  | .ok y_new => (.ok (p.bal1 - y_new), p)

/-- `get_dx_given_dy(dy)` (source lines 182-201), the mirror quote. -/
def get_dx_given_dy (p : Pool) (dy : ℚ) : Except Err ℚ × Pool :=
  match solve_for_balance p (p.bal1 + dy) 1 p.invariant with
  | .error e => (.error e, p)
  | .ok x_new => (.ok (p.bal0 - x_new), p)

/-- `swap_x_for_y(dx)` (source lines 203-238): quote `dy`, then mutate both
balances, then recompute the invariant (the computed difference
`invariant_diff = |D_new - D_old|` at line 222 is only printed, never
compared against anything), commit the new invariant, update the spot
price and append the swap record.  An exception raised after the balance
update (by `_compute_invariant` or `update_spot_price`) propagates with
the balance mutation already applied. -/
def swap_x_for_y (p : Pool) (dx : ℚ) : Except Err ℚ × Pool :=
  match (get_dy_given_dx p dx).1 with
  | .error e => (.error e, p)
  | .ok dy =>
    let p1 : Pool := { p with bal0 := p.bal0 + dx, bal1 := p.bal1 - dy }
    match compute_invariant p1.bal0 p1.bal1 p1.amp with
    | .error e => (.error e, p1)
    | .ok Dnew =>
      let p2 : Pool := { p1 with invariant := Dnew }
      match update_spot_price p2 with
      | .error e => (.error e, p2)
      | .ok p3 => (.ok dy, { p3 with swap_history := p3.swap_history ++ [(Dir.xy, dx, dy)] })

/-- `swap_y_for_x(dy)` (source lines 240-275), the mirror swap. -/
def swap_y_for_x (p : Pool) (dy : ℚ) : Except Err ℚ × Pool :=
  match (get_dx_given_dy p dy).1 with
  | .error e => (.error e, p)
  | .ok dx =>
    let p1 : Pool := { p with bal1 := p.bal1 + dy, bal0 := p.bal0 - dx }
    match compute_invariant p1.bal0 p1.bal1 p1.amp with
    | .error e => (.error e, p1)
    | .ok Dnew =>
      let p2 : Pool := { p1 with invariant := Dnew }
      match update_spot_price p2 with
      | .error e => (.error e, p2)
      | .ok p3 => (.ok dx, { p3 with swap_history := p3.swap_history ++ [(Dir.yx, dy, dx)] })

/-- `__init__(initial_balances, amplification_parameter)` (source lines
11-42): store the balances and amplification with empty histories, raise
`ValueError` unless exactly two balances were supplied, compute the
initial invariant, then compute the initial spot price (which appends the
first price snapshot).  No positivity check of any kind is performed on
the balances.  A raised exception means no instance is returned.  (The
`spot_price` field is materialised by `update_spot_price`; the transient
pre-update value `0` is never observable in a returned pool.) -/
def mkPool (initial_balances : List ℚ) (A : ℚ) : Except Err Pool :=
  match initial_balances with
  | [b0, b1] =>
    (match compute_invariant b0 b1 A with
     | .error e => .error e
     | .ok D =>
       update_spot_price
         { bal0 := b0, bal1 := b1, amp := A, invariant := D,
           spot_price := 0, swap_history := [], price_history := [] })
  | _ => .error .valueError

/-- The pool produced by `mkPool [100, 100] 10`: the balanced start used
for the concrete counterexample scenarios (its invariant `200` and spot
price `1` are exact). -/
def scenarioPool : Pool :=
  { bal0 := 100, bal1 := 100, amp := 10, invariant := 200, spot_price := 1,
    swap_history := [], price_history := [(100, 100, 1)] }

/-- The pool produced by `mkPool [1000, 1000] 100`: the specification's own
concrete scenario (§8: `balances = (1000, 1000)`, `A = 100`, `D ≈ 2000`,
`spot_price ≈ 1.0`; here both are exact). -/
def examplePool : Pool :=
  { bal0 := 1000, bal1 := 1000, amp := 100, invariant := 2000, spot_price := 1,
    swap_history := [], price_history := [(1000, 1000, 1)] }

/-- The pool obtained from `mkPool [-1, 1] 100`: the balance sum is zero,
so `_compute_invariant` returns `D = 0` without iterating and construction
succeeds with a negative balance. -/
def negPool : Pool :=
  { bal0 := -1, bal1 := 1, amp := 100, invariant := 0, spot_price := 1,
    swap_history := [], price_history := [(-1, 1, 1)] }

/-- A pool state at which the balance solver's warm start is already an
exact root of the objective (`4·1·(1+1) + 2 = 4·1·2 + 2³/(4·1·1)`), so the
solver converges in two iterations to the exact current balance.  Used
only to instantiate universally quantified theorems in witnesses. -/
def witnessPool : Pool :=
  { bal0 := 1, bal1 := 1, amp := 1, invariant := 2, spot_price := 1,
    swap_history := [], price_history := [] }

/-- Executable check: the quote for `dx` on `p` succeeds and returns an
output of at least `c`. -/
def quoteDyGe (p : Pool) (dx c : ℚ) : Bool :=
  match (get_dy_given_dx p dx).1 with
  | .ok dy => decide (c ≤ dy)
  | .error _ => false

/-- Executable check: `solve_for_balance` converges and its returned
balance is not positive. -/
def solveNonpos (p : Pool) (known : ℚ) (idx : Nat) (target : ℚ) : Bool :=
  match solve_for_balance p known idx target with
  | .ok v => decide (v ≤ 0)
  | .error _ => false

instance {ε α : Type} [DecidableEq ε] [DecidableEq α] : DecidableEq (Except ε α) := fun a b =>
  match a, b with
  | .ok x, .ok y =>
    if h : x = y then isTrue (by rw [h]) else isFalse (fun hh => h (Except.ok.inj hh))
  | .error x, .error y =>
    if h : x = y then isTrue (by rw [h]) else isFalse (fun hh => h (Except.error.inj hh))
  | .ok _, .error _ => isFalse (fun hh => Except.noConfusion hh)
  | .error _, .ok _ => isFalse (fun hh => Except.noConfusion hh)

/-- Errors escaping the secant loop are either its own `RuntimeError`
(embedded as `convergenceError`) or an exception raised by the objective. -/
lemma secantLoop_error (f : ℚ → Except Err ℚ) (tol : ℚ) :
    ∀ (n : Nat) (p0 q0 p1 q1 : ℚ) (e : Err),
      secantLoop f tol p0 q0 p1 q1 n = .error e →
      e = .convergenceError ∨ ∃ c, f c = .error e := by
  intro n
  induction n with
  | zero =>
    intro p0 q0 p1 q1 e h
    unfold secantLoop at h
    exact Or.inl (Except.error.inj h).symm
  | succ n ih =>
    intro p0 q0 p1 q1 e h
    unfold secantLoop at h
    by_cases h1 : q1 = q0
    · rw [if_pos h1] at h
      by_cases h2 : p1 = p0
      · rw [if_pos h2] at h; exact Except.noConfusion h
      · rw [if_neg h2] at h; exact Or.inl (Except.error.inj h).symm
    · rw [if_neg h1] at h
      by_cases h3 : |(q1 * p0 - q0 * p1) / (q1 - q0) - p1| ≤ tol
      · rw [if_pos h3] at h; exact Except.noConfusion h
      · rw [if_neg h3] at h
        cases hf : f ((q1 * p0 - q0 * p1) / (q1 - q0)) with
        | error e0 =>
          simp only [hf] at h
          exact Or.inr ⟨_, hf.trans (congrArg Except.error (Except.error.inj h))⟩
        | ok q =>
          simp only [hf] at h
          exact ih _ _ _ _ _ h

/-- Errors escaping `newton` are either `convergenceError` or an exception
raised by the objective. -/
lemma newton_error (f : ℚ → Except Err ℚ) (x0 tol : ℚ) (maxiter : Nat) (e : Err)
    (h : newton f x0 tol maxiter = .error e) :
    e = .convergenceError ∨ ∃ c, f c = .error e := by
  unfold newton at h
  cases hf0 : f x0 with
  | error e0 =>
    simp only [hf0] at h
    exact Or.inr ⟨_, hf0.trans (congrArg Except.error (Except.error.inj h))⟩
  | ok q0 =>
    simp only [hf0] at h
    cases hf1 : f (if 0 ≤ x0 * (1 + 1 / 10 ^ 4) then x0 * (1 + 1 / 10 ^ 4) + 1 / 10 ^ 4
        else x0 * (1 + 1 / 10 ^ 4) - 1 / 10 ^ 4) with
    | error e1 =>
      simp only [hf1] at h
      exact Or.inr ⟨_, hf1.trans (congrArg Except.error (Except.error.inj h))⟩
    | ok q1 =>
      simp only [hf1] at h
      by_cases hc : |q1| < |q0|
      · rw [if_pos hc] at h; exact secantLoop_error f tol maxiter _ _ _ _ e h
      · rw [if_neg hc] at h; exact secantLoop_error f tol maxiter _ _ _ _ e h

/-- `_invariant_function` can only raise `ZeroDivisionError`. -/
lemma invariant_function_error (A d x y : ℚ) (e : Err)
    (h : invariant_function A d x y = .error e) : e = .zeroDivisionError := by
  unfold invariant_function at h
  by_cases h0 : 4 * x * y = 0
  · rw [if_pos h0] at h; exact (Except.error.inj h).symm
  · rw [if_neg h0] at h; exact Except.noConfusion h

/-- The only exception `solve_for_balance` can raise is the root-finder's
`RuntimeError`: its objective converts every internal exception into the
penalty value `1e10`, and the converged result is returned unchecked. -/
lemma solve_for_balance_error (p : Pool) (known : ℚ) (idx : Nat) (target : ℚ) (e : Err)
    (h : solve_for_balance p known idx target = .error e) : e = .convergenceError := by
  unfold solve_for_balance at h
  rcases newton_error _ _ _ _ _ h with h1 | ⟨c, hc⟩
  · exact h1
  · cases hi : invariant_function p.amp target (if idx = 0 then known else c)
        (if idx = 0 then c else known) with
    | error e0 => simp only [hi] at hc; exact Except.noConfusion hc
    | ok v => simp only [hi] at hc; exact Except.noConfusion hc

/-- `_compute_invariant` can only raise `RuntimeError` (convergence) or a
`ZeroDivisionError` escaping `_invariant_function`. -/
lemma compute_invariant_error (b0 b1 A : ℚ) (e : Err)
    (h : compute_invariant b0 b1 A = .error e) :
    e = .convergenceError ∨ e = .zeroDivisionError := by
  unfold compute_invariant at h
  by_cases h0 : b0 + b1 = 0
  · rw [if_pos h0] at h; exact Except.noConfusion h
  · rw [if_neg h0] at h
    rcases newton_error _ _ _ _ _ h with h1 | ⟨c, hc⟩
    · exact Or.inl h1
    · exact Or.inr (invariant_function_error _ _ _ _ _ hc)

/-- `update_spot_price` can only raise `ZeroDivisionError`. -/
lemma update_spot_price_error (p : Pool) (e : Err)
    (h : update_spot_price p = .error e) : e = .zeroDivisionError := by
  unfold update_spot_price at h
  by_cases h0 : 4 * p.bal0 ^ 2 * p.bal1 = 0
  · rw [if_pos h0] at h; exact (Except.error.inj h).symm
  · rw [if_neg h0] at h
    by_cases h1 : 4 * p.bal0 * p.bal1 ^ 2 = 0
    · rw [if_pos h1] at h; exact (Except.error.inj h).symm
    · rw [if_neg h1] at h
      by_cases h2 : df_dx p.amp p.invariant p.bal0 p.bal1 = 0
      · rw [if_pos h2] at h; exact (Except.error.inj h).symm
      · rw [if_neg h2] at h; exact Except.noConfusion h

/-- On success `update_spot_price` changes only `spot_price` and
`price_history`. -/
lemma update_spot_price_frame (p q : Pool) (h : update_spot_price p = .ok q) :
    q.bal0 = p.bal0 ∧ q.bal1 = p.bal1 ∧ q.amp = p.amp ∧ q.invariant = p.invariant := by
  unfold update_spot_price at h
  by_cases h0 : 4 * p.bal0 ^ 2 * p.bal1 = 0
  · rw [if_pos h0] at h; exact Except.noConfusion h
  · rw [if_neg h0] at h
    by_cases h1 : 4 * p.bal0 * p.bal1 ^ 2 = 0
    · rw [if_pos h1] at h; exact Except.noConfusion h
    · rw [if_neg h1] at h
      by_cases h2 : df_dx p.amp p.invariant p.bal0 p.bal1 = 0
      · rw [if_pos h2] at h; exact Except.noConfusion h
      · rw [if_neg h2] at h
        cases Except.ok.inj h
        exact ⟨rfl, rfl, rfl, rfl⟩

/-- The quote `get_dy_given_dx` returns the pool unchanged (it reads state
but never assigns it). -/
lemma get_dy_given_dx_frame (p : Pool) (dx : ℚ) : (get_dy_given_dx p dx).2 = p := by
  unfold get_dy_given_dx
  cases solve_for_balance p (p.bal0 + dx) 0 p.invariant <;> rfl

/-- Mirror frame fact for `get_dx_given_dy`. -/
lemma get_dx_given_dy_frame (p : Pool) (dy : ℚ) : (get_dx_given_dy p dy).2 = p := by
  unfold get_dx_given_dy
  cases solve_for_balance p (p.bal1 + dy) 1 p.invariant <;> rfl

/-- A quote error is the solver's `convergenceError`. -/
lemma get_dy_given_dx_error (p : Pool) (dx : ℚ) (e : Err)
    (h : (get_dy_given_dx p dx).1 = .error e) : e = .convergenceError := by
  unfold get_dy_given_dx at h
  cases hs : solve_for_balance p (p.bal0 + dx) 0 p.invariant with
  | error e0 =>
    simp only [hs] at h
    exact (Except.error.inj h).symm.trans (solve_for_balance_error _ _ _ _ _ hs)
  | ok v =>
    simp only [hs] at h
    exact Except.noConfusion h

/-- When the quote succeeds it returns exactly `bal1` minus the solver
result, with no sign or magnitude validation. -/
lemma get_dy_given_dx_ok (p : Pool) (dx v : ℚ)
    (h : solve_for_balance p (p.bal0 + dx) 0 p.invariant = .ok v) :
    (get_dy_given_dx p dx).1 = .ok (p.bal1 - v) := by
  unfold get_dy_given_dx
  simp only [h]

/-- Once the quote succeeds, `swap_x_for_y` updates both balances by the
quoted amounts on every subsequent path (success or a later exception):
there is no liquidity check and no rollback. -/
lemma swap_x_for_y_commit (p : Pool) (dx dy : ℚ)
    (h : (get_dy_given_dx p dx).1 = .ok dy) :
    (swap_x_for_y p dx).2.bal0 = p.bal0 + dx ∧
    (swap_x_for_y p dx).2.bal1 = p.bal1 - dy := by
  unfold swap_x_for_y
  simp only [h]
  cases hci : compute_invariant (p.bal0 + dx) (p.bal1 - dy) p.amp with
  | error e => simp [hci]
  | ok Dnew =>
    simp only [hci]
    cases hus : update_spot_price
        { p with bal0 := p.bal0 + dx, bal1 := p.bal1 - dy, invariant := Dnew } with
    | error e => simp [hus]
    | ok p3 =>
      simp only [hus]
      have hf := update_spot_price_frame _ _ hus
      exact ⟨hf.1, hf.2.1⟩

/-- Any error escaping `swap_x_for_y` is a solver `RuntimeError` or a
`ZeroDivisionError`; in particular the swap never fails with any of the
specification's `InsufficientLiquidity` / `InvariantViolation` /
`DomainError` kinds. -/
lemma swap_x_for_y_error (p : Pool) (dx : ℚ) (e : Err)
    (h : (swap_x_for_y p dx).1 = .error e) :
    e = .convergenceError ∨ e = .zeroDivisionError := by
  unfold swap_x_for_y at h
  cases hq : (get_dy_given_dx p dx).1 with
  | error e0 =>
    simp only [hq] at h
    exact Or.inl ((Except.error.inj h).symm.trans (get_dy_given_dx_error _ _ _ hq))
  | ok dy =>
    simp only [hq] at h
    cases hci : compute_invariant (p.bal0 + dx) (p.bal1 - dy) p.amp with
    | error e1 =>
      simp only [hci] at h
      exact (Except.error.inj h) ▸ compute_invariant_error _ _ _ _ hci
    | ok Dnew =>
      simp only [hci] at h
      cases hus : update_spot_price
          { p with bal0 := p.bal0 + dx, bal1 := p.bal1 - dy, invariant := Dnew } with
      | error e2 =>
        simp only [hus] at h
        exact Or.inr ((Except.error.inj h) ▸ update_spot_price_error _ _ hus)
      | ok p3 =>
        simp only [hus] at h
        exact Except.noConfusion h

/-- The instrumented loop computes the same result as `secantLoop`. -/
lemma secantLoopCount_fst (f : ℚ → Except Err ℚ) (tol : ℚ) :
    ∀ (n : Nat) (p0 q0 p1 q1 : ℚ),
      (secantLoopCount f tol p0 q0 p1 q1 n).1 = secantLoop f tol p0 q0 p1 q1 n := by
  intro n
  induction n with
  | zero => intro p0 q0 p1 q1; rfl
  | succ n ih =>
    intro p0 q0 p1 q1
    unfold secantLoop secantLoopCount
    by_cases h1 : q1 = q0
    · rw [if_pos h1, if_pos h1]
      by_cases h2 : p1 = p0
      · rw [if_pos h2, if_pos h2]
      · rw [if_neg h2, if_neg h2]
    · rw [if_neg h1, if_neg h1]
      by_cases h3 : |(q1 * p0 - q0 * p1) / (q1 - q0) - p1| ≤ tol
      · rw [if_pos h3, if_pos h3]
      · rw [if_neg h3, if_neg h3]
        cases hf : f ((q1 * p0 - q0 * p1) / (q1 - q0)) with
        | error e => simp only [hf]
        | ok q => simp only [hf]; exact ih _ _ _ _

/-- The loop executes at most as many iterations as its fuel allows. -/
lemma secantLoopCount_le (f : ℚ → Except Err ℚ) (tol : ℚ) :
    ∀ (n : Nat) (p0 q0 p1 q1 : ℚ),
      (secantLoopCount f tol p0 q0 p1 q1 n).2 ≤ n := by
  intro n
  induction n with
  | zero => intro p0 q0 p1 q1; exact Nat.le_refl 0
  | succ n ih =>
    intro p0 q0 p1 q1
    unfold secantLoopCount
    by_cases h1 : q1 = q0
    · rw [if_pos h1]
      by_cases h2 : p1 = p0
      · rw [if_pos h2]; exact Nat.succ_le_succ (Nat.zero_le n)
      · rw [if_neg h2]; exact Nat.succ_le_succ (Nat.zero_le n)
    · rw [if_neg h1]
      by_cases h3 : |(q1 * p0 - q0 * p1) / (q1 - q0) - p1| ≤ tol
      · rw [if_pos h3]; exact Nat.succ_le_succ (Nat.zero_le n)
      · rw [if_neg h3]
        cases hf : f ((q1 * p0 - q0 * p1) / (q1 - q0)) with
        | error e => simp only [hf]; exact Nat.succ_le_succ (Nat.zero_le n)
        | ok q => simp only [hf]; exact Nat.succ_le_succ (ih _ _ _ _)

/-- The instrumented root-finder computes the same result as `newton`. -/
lemma newtonCount_fst (f : ℚ → Except Err ℚ) (x0 tol : ℚ) (maxiter : Nat) :
    (newtonCount f x0 tol maxiter).1 = newton f x0 tol maxiter := by
  unfold newton newtonCount
  cases hf0 : f x0 with
  | error e0 => simp only [hf0]
  | ok q0 =>
    simp only [hf0]
    cases hf1 : f (if 0 ≤ x0 * (1 + 1 / 10 ^ 4) then x0 * (1 + 1 / 10 ^ 4) + 1 / 10 ^ 4
        else x0 * (1 + 1 / 10 ^ 4) - 1 / 10 ^ 4) with
    | error e1 => simp only [hf1]
    | ok q1 =>
      simp only [hf1]
      by_cases hc : |q1| < |q0|
      · rw [if_pos hc, if_pos hc]; exact secantLoopCount_fst f tol maxiter _ _ _ _
      · rw [if_neg hc, if_neg hc]; exact secantLoopCount_fst f tol maxiter _ _ _ _

/-- The root-finder executes at most `maxiter` iterations. -/
lemma newtonCount_le (f : ℚ → Except Err ℚ) (x0 tol : ℚ) (maxiter : Nat) :
    (newtonCount f x0 tol maxiter).2 ≤ maxiter := by
  unfold newtonCount
  cases hf0 : f x0 with
  | error e0 => simp only [hf0]; exact Nat.zero_le maxiter
  | ok q0 =>
    simp only [hf0]
    cases hf1 : f (if 0 ≤ x0 * (1 + 1 / 10 ^ 4) then x0 * (1 + 1 / 10 ^ 4) + 1 / 10 ^ 4
        else x0 * (1 + 1 / 10 ^ 4) - 1 / 10 ^ 4) with
    | error e1 => simp only [hf1]; exact Nat.zero_le maxiter
    | ok q1 =>
      simp only [hf1]
      by_cases hc : |q1| < |q0|
      · rw [if_pos hc]; exact secantLoopCount_le f tol maxiter _ _ _ _
      · rw [if_neg hc]; exact secantLoopCount_le f tol maxiter _ _ _ _

/-- The instrumented invariant computation agrees with the plain one. -/
lemma compute_invariant_count_fst (b0 b1 A : ℚ) :
    (compute_invariant_count b0 b1 A).1 = compute_invariant b0 b1 A := by
  unfold compute_invariant compute_invariant_count
  by_cases h0 : b0 + b1 = 0
  · rw [if_pos h0, if_pos h0]
  · rw [if_neg h0, if_neg h0]; exact newtonCount_fst _ _ _ _

/-- The packaged quote-output check is sound: `true` means the quote
succeeded with an output of at least `c`. -/
lemma quoteDyGe_sound (p : Pool) (dx c : ℚ) (h : quoteDyGe p dx c = true) :
    ∃ dy, (get_dy_given_dx p dx).1 = .ok dy ∧ c ≤ dy := by
  unfold quoteDyGe at h
  cases hq : (get_dy_given_dx p dx).1 with
  | ok dy =>
    rw [hq] at h
    exact ⟨dy, rfl, of_decide_eq_true h⟩
  | error e => rw [hq] at h; exact Bool.noConfusion h

/-- The packaged solver-sign check is sound: `true` means the solver
converged and returned a non-positive balance. -/
lemma solveNonpos_sound (p : Pool) (known : ℚ) (idx : Nat) (target : ℚ)
    (h : solveNonpos p known idx target = true) :
    ∃ v, solve_for_balance p known idx target = .ok v ∧ v ≤ 0 := by
  unfold solveNonpos at h
  cases hq : solve_for_balance p known idx target with
  | ok v =>
    rw [hq] at h
    exact ⟨v, rfl, of_decide_eq_true h⟩
  | error e => rw [hq] at h; exact Bool.noConfusion h

/-- `residualFun` in its first balance argument, written as an affine
function plus a multiple of `t⁻¹` (an identity of rational functions that
holds for every `t`, including `t = 0`, since `ℚ` sets `0⁻¹ = 0`). -/
lemma residualFun_x_eq (A d y : ℚ) :
    (fun t : ℚ => residualFun A d t y) =
      fun t : ℚ => 4 * A * t + (4 * A * y + d - 4 * A * d) - d ^ 3 / (4 * y) * t⁻¹ := by
  funext t
  unfold residualFun
  ring

/-- `residualFun` in its second balance argument, in the same form. -/
lemma residualFun_y_eq (A d x : ℚ) :
    (fun t : ℚ => residualFun A d x t) =
      fun t : ℚ => 4 * A * t + (4 * A * x + d - 4 * A * d) - d ^ 3 / (4 * x) * t⁻¹ := by
  funext t
  unfold residualFun
  ring

/-- The true partial derivative of the curve residual with respect to the
first balance: `∂F/∂x = 4A + D³/(4x²y)` (note the sign of the second
term). -/
lemma residualFun_hasDerivAt_x (A d y x : ℚ) (hx : x ≠ 0) :
    HasDerivAt (fun t : ℚ => residualFun A d t y) (4 * A + d ^ 3 / (4 * x ^ 2 * y)) x := by
  have h1 : HasDerivAt (fun t : ℚ => 4 * A * t) (4 * A) x := by
    simpa using (hasDerivAt_id x).const_mul (4 * A)
  have h2 : HasDerivAt (fun t : ℚ => t⁻¹) (-(x ^ 2)⁻¹) x := hasDerivAt_inv hx
  have h3 := (h1.add_const (4 * A * y + d - 4 * A * d)).sub
    (HasDerivAt.const_mul (d ^ 3 / (4 * y)) h2)
  rw [residualFun_x_eq]
  convert h3 using 1
  ring

/-- The true partial derivative of the curve residual with respect to the
second balance: `∂F/∂y = 4A + D³/(4xy²)`. -/
lemma residualFun_hasDerivAt_y (A d x y : ℚ) (hy : y ≠ 0) :
    HasDerivAt (fun t : ℚ => residualFun A d x t) (4 * A + d ^ 3 / (4 * x * y ^ 2)) y := by
  have h1 : HasDerivAt (fun t : ℚ => 4 * A * t) (4 * A) y := by
    simpa using (hasDerivAt_id y).const_mul (4 * A)
  have h2 : HasDerivAt (fun t : ℚ => t⁻¹) (-(y ^ 2)⁻¹) y := hasDerivAt_inv hy
  have h3 := (h1.add_const (4 * A * x + d - 4 * A * d)).sub
    (HasDerivAt.const_mul (d ^ 3 / (4 * x)) h2)
  rw [residualFun_y_eq]
  convert h3 using 1
  ring

set_option maxRecDepth 1000000 in
set_option maxHeartbeats 4000000 in
/-- C1 (code_bug): the specification requires that after the tentative
balance update the recomputed invariant drift `|D_new - D_old|` be checked
against a configured tolerance, failing with `InvariantViolation` and
rolling back on excess.  The code computes `invariant_diff` but never
compares it to anything: at the specification's own concrete scenario
(`balances = (1000, 1000)`, `A = 100`, `dx = 100`) the swap commits the
mutated balances and the drifted invariant (`D_new ≠ D_old` exactly), and
no execution of `swap_x_for_y` can ever fail with `InvariantViolation`. -/
theorem swap_x_for_y_commits_without_drift_check :
    mkPool [1000, 1000] 100 = .ok examplePool ∧
    (swap_x_for_y examplePool 100).1 ≠ .error .invariantViolation ∧
    (swap_x_for_y examplePool 100).2.bal0 = 1100 ∧
    (swap_x_for_y examplePool 100).2.invariant ≠ examplePool.invariant := by
  refine ⟨by with_unfolding_all decide, fun hcon => ?_, by with_unfolding_all decide,
    by with_unfolding_all decide⟩
  rcases swap_x_for_y_error _ _ _ hcon with he | he <;> exact Err.noConfusion he

set_option maxRecDepth 1000000 in
set_option maxHeartbeats 4000000 in
/-- C2 counterexample: on the reachable pool `mkPool [100, 100] 10`, the
swap `dx = 1000000` computes an output `dy ≥` the entire `y` balance, yet
the call does not fail with `InsufficientLiquidity` and does mutate the
pool (`bal0` becomes `1000100 ≠ 100`), refuting the claim that such swaps
fail with `InsufficientLiquidity` and perform no mutation. -/
theorem swap_exceeding_balance_mutates_pool :
    mkPool [100, 100] 10 = .ok scenarioPool ∧
    quoteDyGe scenarioPool 1000000 scenarioPool.bal1 = true ∧
    (swap_x_for_y scenarioPool 1000000).2.bal0 = 1000100 ∧
    (swap_x_for_y scenarioPool 1000000).2.bal0 ≠ scenarioPool.bal0 ∧
    (swap_x_for_y scenarioPool 1000000).1 ≠ .error .insufficientLiquidity := by
  have hq : quoteDyGe scenarioPool 1000000 scenarioPool.bal1 = true := by
    with_unfolding_all decide
  obtain ⟨dy, hdy, hge⟩ := quoteDyGe_sound _ _ _ hq
  obtain ⟨h1, h2⟩ := swap_x_for_y_commit _ _ _ hdy
  refine ⟨by with_unfolding_all decide, hq, ?_, ?_, fun hcon => ?_⟩
  · rw [h1]; norm_num [scenarioPool]
  · rw [h1]; norm_num [scenarioPool]
  · rcases swap_x_for_y_error _ _ _ hcon with he | he <;> exact Err.noConfusion he

set_option maxRecDepth 1000000 in
set_option maxHeartbeats 4000000 in
/-- C2 (corrected): `swap_x_for_y` performs no liquidity check at all:
whenever the quote converges to an output `dy`, both balances are updated
by the full amounts on every subsequent path — even when `dy` meets or
exceeds the entire `y` balance — and the call never fails with
`InsufficientLiquidity`. -/
theorem swap_x_for_y_no_insufficient_liquidity_check :
    ∀ (p : Pool) (dx dy : ℚ), (get_dy_given_dx p dx).1 = .ok dy →
      (swap_x_for_y p dx).2.bal0 = p.bal0 + dx ∧
      (swap_x_for_y p dx).2.bal1 = p.bal1 - dy ∧
      (swap_x_for_y p dx).1 ≠ .error .insufficientLiquidity := by
  intro p dx dy h
  obtain ⟨h1, h2⟩ := swap_x_for_y_commit p dx dy h
  refine ⟨h1, h2, fun hcon => ?_⟩
  rcases swap_x_for_y_error p dx _ hcon with he | he <;> exact Err.noConfusion he

/-- Witness for C2's amended claim at a concrete converging input. -/
theorem swap_x_for_y_no_insufficient_liquidity_check_witness :
    (swap_x_for_y witnessPool 0).2.bal0 = witnessPool.bal0 + 0 ∧
    (swap_x_for_y witnessPool 0).2.bal1 = witnessPool.bal1 - 0 ∧
    (swap_x_for_y witnessPool 0).1 ≠ .error .insufficientLiquidity :=
  swap_x_for_y_no_insufficient_liquidity_check witnessPool 0 0 (by with_unfolding_all decide)

/-- C3 counterexample: on the reachable pool `mkPool [100, 100] 10`, the
balance-solver call made by a `dx = 1000000` quote
(`solve_for_balance(1000100, 0, D = 200)`) converges and returns a
negative balance, refuting the claim that the returned balance is always
strictly positive (with a `DomainError` otherwise). -/
theorem solve_for_balance_returns_nonpositive :
    mkPool [100, 100] 10 = .ok scenarioPool ∧
    solveNonpos scenarioPool 1000100 0 scenarioPool.invariant = true := by
  exact ⟨by with_unfolding_all decide, by with_unfolding_all decide⟩

set_option maxRecDepth 1000000 in
set_option maxHeartbeats 4000000 in
/-- C3 (corrected): `solve_for_balance` returns whatever value the
root-finder converges to, with no positivity validation: it never fails
with `DomainError` (its objective converts every internal exception into
the `1e10` penalty, and the only possible failure is the root-finder's
`RuntimeError`). -/
theorem solve_for_balance_never_domain_error :
    ∀ (p : Pool) (known : ℚ) (idx : Nat) (target : ℚ),
      solve_for_balance p known idx target ≠ .error .domainError := by
  intro p known idx target h
  exact Err.noConfusion (solve_for_balance_error p known idx target _ h)

/-- C4 counterexample: on the reachable pool `mkPool [100, 100] 10` with
`dx = 1000000 > 0`, the quote converges and returns `dy ≥` the pool's
current `y` balance, refuting the claim that `dy` is always strictly less
than the current `y` balance. -/
theorem get_dy_given_dx_output_can_reach_pool_balance :
    mkPool [100, 100] 10 = .ok scenarioPool ∧
    (0 : ℚ) < 1000000 ∧
    quoteDyGe scenarioPool 1000000 scenarioPool.bal1 = true := by
  refine ⟨by with_unfolding_all decide, by norm_num, by with_unfolding_all decide⟩

/-- C4 (corrected): `get_dy_given_dx` computes `x_new = x + dx`, obtains
`y_new` from the balance solver at the pool's current invariant, and
returns `dy = y - y_new` unconditionally: there is no positivity check, no
upper-bound check, and no `InvariantViolation` path for `dy ≤ 0`. -/
theorem get_dy_given_dx_returns_unchecked_difference :
    ∀ (p : Pool) (dx v : ℚ),
      solve_for_balance p (p.bal0 + dx) 0 p.invariant = .ok v →
      (get_dy_given_dx p dx).1 = .ok (p.bal1 - v) :=
  fun p dx v h => get_dy_given_dx_ok p dx v h

/-- Witness for C4's amended claim at a concrete converging input. -/
theorem get_dy_given_dx_returns_unchecked_difference_witness :
    (get_dy_given_dx witnessPool 0).1 = .ok (witnessPool.bal1 - 1) :=
  get_dy_given_dx_returns_unchecked_difference witnessPool 0 1 (by with_unfolding_all decide)

/-- C5 counterexample: construction with a negative balance succeeds —
`mkPool [-1, 1] 100` returns a pool whose first balance is `-1 < 0`
(the zero balance sum short-circuits the invariant computation to `D = 0`),
refuting the claim that zero-or-negative balances fail with `DomainError`
and that every constructed pool has positive balances. -/
theorem mkPool_accepts_negative_balance :
    mkPool [-1, 1] 100 = .ok negPool ∧ negPool.bal0 < 0 := by
  exact ⟨by with_unfolding_all decide, by with_unfolding_all decide⟩

/-- C5 (corrected): the constructor validates only the token count
(a non-two-element balance list raises `ValueError`); it performs no
positivity check.  Zero balances do make construction fail, but with
`ZeroDivisionError` (from the spot-price division, or from the curve
evaluation inside the root-finder), never with a `DomainError`, and a
negative balance whose sum with the other is nonzero — or the `[-1, 1]`
case above — is accepted. -/
theorem mkPool_failure_modes :
    mkPool [0, 0] 100 = .error .zeroDivisionError ∧
    mkPool [0, 5] 100 = .error .zeroDivisionError ∧
    mkPool [1, 2, 3] 100 = .error .valueError := by
  refine ⟨by with_unfolding_all decide, by with_unfolding_all decide,
    by with_unfolding_all decide⟩

/-- C6 counterexample: the claim asserts that the partial derivatives of
the residual are `∂F/∂x = 4A - D³/(4x²y)` (the expression the code
computes).  At `A = 1, D = 2, x = y = 1` the actual derivative of the
residual in `x` is `6`, while the code's expression `df_dx` evaluates to
`2`: the sign of the `D³` term is wrong. -/
theorem spot_price_expression_is_not_the_residual_derivative :
    deriv (fun t : ℚ => residualFun 1 2 t 1) 1 = 6 ∧
    df_dx 1 2 1 1 = 2 ∧ (6 : ℚ) ≠ 2 := by
  refine ⟨?_, ?_, by norm_num⟩
  · have h := residualFun_hasDerivAt_x 1 2 1 1 (by norm_num)
    rw [h.deriv]
    norm_num
  · unfold df_dx
    norm_num

/-- C6 (corrected): the curve residual returns exactly
`4A(x+y) + D - 4AD - D³/(4xy)` as claimed, and the code's spot-price
routine computes the expressions `4A - D³/(4x²y)` and `4A - D³/(4xy²)`;
but those expressions are not the residual's partial derivatives — the
true derivatives are `4A + D³/(4x²y)` and `4A + D³/(4xy²)` (second term
positive). -/
theorem residual_formula_and_true_derivatives :
    ∀ A d x y : ℚ, x ≠ 0 → y ≠ 0 →
      invariant_function A d x y =
        .ok (4 * A * (x + y) + d - 4 * A * d - d ^ 3 / (4 * x * y)) ∧
      df_dx A d x y = 4 * A - d ^ 3 / (4 * x ^ 2 * y) ∧
      df_dy A d x y = 4 * A - d ^ 3 / (4 * x * y ^ 2) ∧
      HasDerivAt (fun t : ℚ => residualFun A d t y) (4 * A + d ^ 3 / (4 * x ^ 2 * y)) x ∧
      HasDerivAt (fun t : ℚ => residualFun A d x t) (4 * A + d ^ 3 / (4 * x * y ^ 2)) y := by
  intro A d x y hx hy
  refine ⟨?_, rfl, rfl, residualFun_hasDerivAt_x A d y x hx,
    residualFun_hasDerivAt_y A d x y hy⟩
  unfold invariant_function
  rw [if_neg (mul_ne_zero (mul_ne_zero (by norm_num) hx) hy)]
  exact congrArg Except.ok (by unfold residualFun; ring)

/-- Witness for C6's amended claim at `A = 1, D = 2, x = y = 1`. -/
theorem residual_formula_and_true_derivatives_witness :
    invariant_function 1 2 1 1 =
      .ok (4 * 1 * ((1 : ℚ) + 1) + 2 - 4 * 1 * 2 - 2 ^ 3 / (4 * 1 * 1)) ∧
    df_dx 1 2 1 1 = 4 * 1 - 2 ^ 3 / (4 * 1 ^ 2 * 1) ∧
    df_dy 1 2 1 1 = 4 * 1 - 2 ^ 3 / (4 * 1 * 1 ^ 2) ∧
    HasDerivAt (fun t : ℚ => residualFun 1 2 t 1) (4 * 1 + 2 ^ 3 / (4 * 1 ^ 2 * 1)) 1 ∧
    HasDerivAt (fun t : ℚ => residualFun 1 2 1 t) (4 * 1 + 2 ^ 3 / (4 * 1 * 1 ^ 2)) 1 :=
  residual_formula_and_true_derivatives 1 2 1 1 (by norm_num) (by norm_num)

/-- C7 (confirmed): `_compute_invariant` performs bounded work: the
instrumented run agrees with the plain one and executes at most 100
root-finder iterations; when the balance sum is zero it returns `D = 0`
with zero iterations; otherwise it is exactly the derivative-free
root-finder started from `b0 + b1` with tolerance `1e-10` and cap `100`
(whose fuel exhaustion yields `convergenceError`). -/
theorem compute_invariant_bounded_iterations :
    ∀ b0 b1 A : ℚ,
      (compute_invariant_count b0 b1 A).1 = compute_invariant b0 b1 A ∧
      (compute_invariant_count b0 b1 A).2 ≤ 100 ∧
      (b0 + b1 = 0 →
        compute_invariant b0 b1 A = .ok 0 ∧ (compute_invariant_count b0 b1 A).2 = 0) ∧
      (b0 + b1 ≠ 0 → compute_invariant b0 b1 A =
        newton (fun d => invariant_function A d b0 b1) (b0 + b1) (1 / 10 ^ 10) 100) := by
  intro b0 b1 A
  refine ⟨compute_invariant_count_fst b0 b1 A, ?_, ?_, ?_⟩
  · unfold compute_invariant_count
    by_cases h0 : b0 + b1 = 0
    · rw [if_pos h0]; exact Nat.zero_le 100
    · rw [if_neg h0]; exact newtonCount_le _ _ _ _
  · intro h0
    constructor
    · unfold compute_invariant; rw [if_pos h0]
    · unfold compute_invariant_count; rw [if_pos h0]
  · intro h0
    unfold compute_invariant; rw [if_neg h0]

/-- Witness for C7 at the zero-sum input. -/
theorem compute_invariant_bounded_iterations_witness :
    compute_invariant 0 0 100 = .ok 0 ∧ (compute_invariant_count 0 0 100).2 = 0 :=
  (compute_invariant_bounded_iterations 0 0 100).2.2.1 (by norm_num)

/-- C8 (confirmed): at equal balances the two derivative expressions the
code computes coincide, so whenever the spot price is defined (nonzero
denominators and `df_dx ≠ 0`) `update_spot_price` stores exactly `1`, and
any successfully stored price is within `1e-6` of `1`. -/
theorem spot_price_is_one_at_equal_balances :
    ∀ p : Pool, p.bal1 = p.bal0 → 0 < p.bal0 →
      df_dx p.amp p.invariant p.bal0 p.bal1 ≠ 0 →
      update_spot_price p =
        .ok { p with
              spot_price := 1,
              price_history := p.price_history ++ [(p.bal0, p.bal1, 1)] } ∧
      (∀ q : Pool, update_spot_price p = .ok q → |q.spot_price - 1| ≤ 1 / 10 ^ 6) := by
  intro p hxy hx hfx
  have hx0 : p.bal0 ≠ 0 := ne_of_gt hx
  have hcond1 : ¬ (4 * p.bal0 ^ 2 * p.bal1 = 0) := by
    rw [hxy]
    positivity
  have hcond2 : ¬ (4 * p.bal0 * p.bal1 ^ 2 = 0) := by
    rw [hxy]
    positivity
  have hfyfx : df_dy p.amp p.invariant p.bal0 p.bal1 =
      df_dx p.amp p.invariant p.bal0 p.bal1 := by
    unfold df_dx df_dy
    rw [hxy]
    ring
  have hmain : update_spot_price p =
      .ok { p with
            spot_price := 1,
            price_history := p.price_history ++ [(p.bal0, p.bal1, 1)] } := by
    unfold update_spot_price
    rw [if_neg hcond1, if_neg hcond2, if_neg hfx, hfyfx, div_self hfx]
  refine ⟨hmain, fun q hq => ?_⟩
  rw [hmain] at hq
  cases Except.ok.inj hq
  norm_num

/-- Witness for C8 at the specification's concrete scenario pool. -/
theorem spot_price_is_one_at_equal_balances_witness :
    update_spot_price examplePool =
      .ok { examplePool with
            spot_price := 1,
            price_history := examplePool.price_history ++
              [(examplePool.bal0, examplePool.bal1, 1)] } :=
  (spot_price_is_one_at_equal_balances examplePool rfl (by with_unfolding_all decide)
    (by with_unfolding_all decide)).1

/-- C9 (confirmed): quoting does not mutate the pool: both quote functions
return the pool state exactly as given (balances, cached invariant, cached
spot price and both history logs included), even though the balance solver
reads the pool's current other-side balance as its warm-start guess. -/
theorem quotes_do_not_mutate_pool :
    ∀ (p : Pool) (a b : ℚ),
      (get_dy_given_dx p a).2 = p ∧ (get_dx_given_dy p b).2 = p :=
  fun p a b => ⟨get_dy_given_dx_frame p a, get_dx_given_dy_frame p b⟩

/-- C10 (confirmed): the curve residual is symmetric in the two balances. -/
theorem invariant_function_symmetric :
    ∀ x y d A : ℚ, x ≠ 0 → y ≠ 0 →
      invariant_function A d x y = invariant_function A d y x := by
  intro x y d A hx hy
  unfold invariant_function
  rw [show (4 : ℚ) * y * x = 4 * x * y from by ring]
  by_cases h0 : 4 * x * y = 0
  · rw [if_pos h0, if_pos h0]
  · rw [if_neg h0, if_neg h0]
    exact congrArg Except.ok (by unfold residualFun; ring)

/-- Witness for C10 at `x = 2, y = 3, D = 5, A = 7`. -/
theorem invariant_function_symmetric_witness :
    invariant_function 7 5 2 3 = invariant_function 7 5 3 2 :=
  invariant_function_symmetric 2 3 5 7 (by norm_num) (by norm_num)
